import Mathlib

/-!
Shallow embedding of `claude-skill-manager` (Python) for specification
verification: data models (`models.py`), the GitHub fetcher retry loop and
content validation (`fetcher.py`), the configuration store (`config.py`),
and the installer / metadata store (`installer.py`).

Python strings are modelled as Lean `String`; the character-level Python
operations the code uses (`str.split` with a one-character separator,
`str.strip`, `str.endswith`) are defined here on `String.data` so that they
both match Python's semantics and evaluate on concrete inputs.  External
libraries (the front-matter / YAML parser, the SHA-256 digest, the HTTP
transport, the clock) enter as explicit function parameters, so that the
control flow of the repository's own code is what is being verified.
-/

namespace SkillManager

/-! ### Python string primitives -/

/-- Python `str.isspace` (the set `str.strip()` removes): ASCII whitespace
plus the Unicode space separators. -/
def pyIsSpace (c : Char) : Bool :=
  c == ' ' || c == '\t' || c == '\n' || c == '\r' ||
  c == '\x0b' || c == '\x0c' || c == '\x1c' || c == '\x1d' ||
  c == '\x1e' || c == '\x1f' || c == '\x85' || c == '\xa0' ||
  c == '\u1680' || ('\u2000' ≤ c && c ≤ '\u200a') ||
  c == '\u2028' || c == '\u2029' || c == '\u202f' || c == '\u205f' ||
  c == '\u3000'

/-- Python `str.strip()` at the character level: drop whitespace from both
ends. -/
def pyStripL (l : List Char) : List Char :=
  ((l.dropWhile pyIsSpace).reverse.dropWhile pyIsSpace).reverse

/-- Python `str.split(sep)` for a one-character separator, at the character
level.  `splitChar sep [] = [[]]`, matching `"".split(sep) == ['']`. -/
def splitChar (sep : Char) : List Char → List (List Char)
  | [] => [[]]
  | c :: cs =>
    let rest := splitChar sep cs
    if c = sep then [] :: rest
    else
      match rest with
      | [] => [[c]]
      | l :: ls => (c :: l) :: ls

/-- Python `str.split(sep)` for a one-character separator, on `String`. -/
def pySplit (sep : Char) (s : String) : List String :=
  (splitChar sep s.data).map String.mk

/-- Python `str.endswith(suffix)`. -/
def pyEndsWith (s root : String) : Bool :=
  root.data.isSuffixOf s.data

/-! ### models.py -/

/-- `SkillSource` from models.py: a GitHub repository reference. -/
structure SkillSource where
  owner : String
  repo : String
  branch : String
deriving DecidableEq, Repr

/-- `SkillSource.full_name`: the derived `owner/repo` string. -/
def SkillSource.full_name (s : SkillSource) : String :=
  s.owner ++ "/" ++ s.repo

/-- `SkillSource.from_string`: split the input on `/`; succeed exactly when
this yields two parts (`len(parts) != 2` raises `ValueError`, the error
carrying the offending string), with no further check on the parts. -/
def SkillSource.from_string (source : String) (branch : String) :
    Except String SkillSource :=
  match pySplit '/' source with
  | [owner, repo] => .ok { owner, repo, branch }
  | _ => .error s!"Invalid source format: {source}. Expected owner/repo"

/-- `SkillConfig` from models.py (pydantic model): default source,
allow-list and aliases.  `aliases` is an insertion-ordered mapping,
modelled as an association list. -/
structure SkillConfig where
  default_source : String
  allowed_sources : List String
  aliases : List (String × String)
deriving DecidableEq, Repr

/-- The check performed by both pydantic field validators of `SkillConfig`:
a source string must split on `/` into exactly two parts. -/
def sourceFormatOk (s : String) : Bool :=
  (pySplit '/' s).length == 2

/-- `SkillMetadata` from models.py: provenance record for one installed
skill.  `fetched_at` (a wall-clock timestamp) is abstracted as `Nat`. -/
structure SkillMetadata where
  source : String
  fetched_at : Nat
  branch : String
  checksum : String
deriving DecidableEq, Repr

/-- `Skill` from models.py: fetched skill content with optional
front-matter metadata. -/
structure Skill where
  name : String
  content : String
  source : String
  branch : String
  metadata : Option (List (String × String))
deriving DecidableEq, Repr

/-- The `.md`-suffix normalization shared by `Skill.filename`,
`SkillInstaller.remove`, `get_skill_info`, `is_installed` and
`needs_update`. -/
def ensureMd (name : String) : String :=
  if pyEndsWith name ".md" then name else name ++ ".md"

/-- `Skill.filename`: the skill name with `.md` ensured. -/
def Skill.filename (s : Skill) : String :=
  ensureMd s.name

/-! ### fetcher.py -/

/-- The front-matter parser (`frontmatter.loads`) is an external library:
it is modelled as a function from the content to `none` (the parser raises)
or `some metadata` (the parsed, possibly empty, metadata mapping).  It is a
pure function, so both call sites in fetcher.py see the same result. -/
abbrev FrontMatter := String → Option (List (String × String))

/-- The kinds of `FetchError` raised in fetcher.py, by raise site. -/
inductive FetchErr where
  /-- "File too large: ... bytes" (validation, size over `MAX_FILE_SIZE`). -/
  | tooLarge (n : Nat)
  /-- "Fetched content is empty" (validation, whitespace-only body). -/
  | emptyContent
  /-- "Content does not appear to be valid" (validation fallback). -/
  | invalidContent
  /-- "Skill not found: ..." (HTTP 404). -/
  | notFound (skillName fullName branch : String)
  /-- "Access forbidden..." (HTTP 403). -/
  | forbidden
  /-- "Server error: {code}" (HTTP 5xx, recorded as retryable). -/
  | serverError (code : Nat)
  /-- "Unexpected status code: {code}" (any other status). -/
  | unexpectedStatus (code : Nat)
  /-- "Network error: ..." (transport error, recorded as retryable). -/
  | networkError (msg : String)
  /-- "Failed to fetch skill after all retries". -/
  | exhausted
deriving DecidableEq, Repr

/-- A Python exception escaping `fetch`: either a `FetchError`, or the
exception of the front-matter parser propagating out of the unguarded
`frontmatter.loads(content)` call on the 200 path (it is not an
`httpx.RequestError`, so nothing in `fetch` catches it). -/
inductive PyExn where
  | fetchError (e : FetchErr)
  | frontMatterExn
deriving DecidableEq, Repr

/-- `MAX_FILE_SIZE = 1024 * 1024`. -/
def MAX_FILE_SIZE : Nat := 1024 * 1024

/-- `MAX_RETRIES = 4`. -/
def MAX_RETRIES : Nat := 4

/-- `INITIAL_RETRY_DELAY = 2.0` (time-units; the delays involved are all
exactly representable, so `ℚ` models the Python float arithmetic). -/
def INITIAL_RETRY_DELAY : ℚ := 2

/-- `SkillFetcher._validate_content`: size check, emptiness check, then a
guarded front-matter parse whose failure is tolerated when some line of the
body is non-blank; returns the raised `FetchError`, if any. -/
def validate_content (fm : FrontMatter) (content : String) :
    Option FetchErr :=
  if content.length > MAX_FILE_SIZE then some (.tooLarge content.length)
  else if (pyStripL content.data).isEmpty then some .emptyContent
  else
    match fm content with
    | some _ => none
    | none =>
      if (splitChar '\n' content.data).all fun line =>
          (pyStripL line).isEmpty then
        some .invalidContent
      else none

/-- One observed HTTP attempt: either a status-code response with a body,
or a transport-level error (`httpx.RequestError`). -/
inductive HttpResp where
  | status (code : Nat) (body : String)
  | transportError (msg : String)
deriving DecidableEq, Repr

/-- The observable result of `SkillFetcher.fetch`: the returned skill or
escaping exception, the number of HTTP requests issued, and the sequence of
`time.sleep` delays performed. -/
structure FetchResult where
  outcome : Except PyExn Skill
  requests : Nat
  sleeps : List ℚ
deriving Repr

/-- The 200 branch of `fetch`: optional validation (a `FetchError` raised
there propagates — only `httpx.RequestError` is caught), then the unguarded
`frontmatter.loads(content)` (its exception propagates), then the `Skill`
is built, with `metadata = None` when the parsed mapping is falsy. -/
def handle200 (fm : FrontMatter) (validate : Bool) (skillName : String)
    (source : SkillSource) (content : String) : Except PyExn Skill :=
  match (if validate then validate_content fm content else none) with
  | some e => .error (.fetchError e)
  | none =>
    match fm content with
    | none => .error .frontMatterExn
    | some md =>
      .ok { name := skillName, content, source := source.full_name,
            branch := source.branch,
            metadata := if md.isEmpty then none else some md }

/-- The body of one iteration of the retry loop in `fetch`, without the
backoff bookkeeping: `terminate r` ends the call with result `r`,
`recordRetry e` records `e` as the last error and falls through to the
backoff sleep. -/
inductive AttemptStep where
  | terminate (r : Except PyExn Skill)
  | recordRetry (e : FetchErr)
deriving Repr

/-- Dispatch on one HTTP attempt exactly as the `if`/`elif` chain of
`fetch` does: 200 handled, 404 and 403 raised immediately, 5xx recorded as
retryable, other statuses raised immediately, transport errors recorded as
retryable. -/
def handleAttempt (fm : FrontMatter) (validate : Bool) (skillName : String)
    (source : SkillSource) : HttpResp → AttemptStep
  | .status code body =>
    if code == 200 then .terminate (handle200 fm validate skillName source body)
    else if code == 404 then
      .terminate (.error (.fetchError
        (.notFound skillName source.full_name source.branch)))
    else if code == 403 then .terminate (.error (.fetchError .forbidden))
    else if code ≥ 500 then .recordRetry (.serverError code)
    else .terminate (.error (.fetchError (.unexpectedStatus code)))
  | .transportError msg => .recordRetry (.networkError msg)

/-- The retry loop of `fetch`: `fuel` is the number of remaining loop
iterations (`MAX_RETRIES - attempt`), `attempt` the 0-based attempt index,
`lastError` the `last_error` variable, `reqs` and `sleeps` the trace so
far.  `responses i` is what the `i`-th `client.get` call observes. -/
def fetchAux (fm : FrontMatter) (validate : Bool) (skillName : String)
    (source : SkillSource) (responses : Nat → HttpResp) :
    Nat → Nat → Option FetchErr → Nat → List ℚ → FetchResult
  | 0, _, lastError, reqs, sleeps =>
    { outcome := .error (.fetchError (lastError.getD .exhausted)),
      requests := reqs, sleeps }
  | fuel + 1, attempt, _lastError, reqs, sleeps =>
    match handleAttempt fm validate skillName source (responses attempt) with
    | .terminate r => { outcome := r, requests := reqs + 1, sleeps }
    | .recordRetry e =>
      let sleeps' :=
        if attempt < MAX_RETRIES - 1 then
          sleeps ++ [INITIAL_RETRY_DELAY * 2 ^ attempt]
        else sleeps
      fetchAux fm validate skillName source responses
        fuel (attempt + 1) (some e) (reqs + 1) sleeps'

/-- `SkillFetcher.fetch`: the full retry loop from attempt 0 with no
recorded error and an empty trace. -/
def fetch (fm : FrontMatter) (validate : Bool) (skillName : String)
    (source : SkillSource) (responses : Nat → HttpResp) : FetchResult :=
  fetchAux fm validate skillName source responses MAX_RETRIES 0 none 0 []

/-! ### config.py -/

/-- A parsed YAML value, as `yaml.safe_load` can return it for this config
file: null, strings, integers, lists and (insertion-ordered) mappings with
arbitrary keys. -/
inductive YVal where
  | null
  | str (s : String)
  | int (n : Int)
  | list (l : List YVal)
  | obj (m : List (YVal × YVal))

/-- Python truthiness of a parsed YAML value, as `yaml.safe_load(f) or {}`
evaluates it: `None`, the empty string, zero and empty containers are
falsy. -/
def pyTruthy : YVal → Bool
  | .null => false
  | .str s => !s.isEmpty
  | .int n => n != 0
  | .list l => !l.isEmpty
  | .obj m => !m.isEmpty

/-- Python `**data` argument unpacking: succeeds only on a mapping all of
whose keys are strings, yielding the keyword arguments; on anything else
(a list, a scalar, or a mapping with a non-string key) the call raises
`TypeError` before pydantic runs. -/
def asKwargs : YVal → Option (List (String × YVal))
  | .obj m =>
    m.foldr
      (fun p acc =>
        match p.1, acc with
        | .str k, some rest => some ((k, p.2) :: rest)
        | _, _ => none)
      (some [])
  | _ => none

/-- Extract a pydantic `str` field value: only an actual string is
accepted. -/
def asStr (v : YVal) : Except String String :=
  match v with
  | .str s => .ok s
  | _ => .error "Input should be a valid string"

/-- Extract a pydantic `(str, str)` alias entry: key and value must both
be strings (pydantic `dict[str, str]` rejects anything else). -/
def asStrPair (p : YVal × YVal) : Except String (String × String) :=
  match p with
  | (.str k, .str v) => .ok (k, v)
  | _ => .error "Input should be a valid string"

/-- Apply a pydantic element validator to every element, failing on the
first invalid one. -/
def mapExcept (f : α → Except String β) : List α → Except String (List β)
  | [] => .ok []
  | a :: rest => do
    let b ← f a
    let bs ← mapExcept f rest
    .ok (b :: bs)

/-- `SkillConfig(**data)` in pydantic: `default_source` is required and
must be a string, `allowed_sources` defaults to `[]` and must be a list of
strings, `aliases` defaults to `{}` and must be a string-to-string mapping;
then the two field validators require the `owner/repo` shape of every
source.  Any failure is a `ValidationError`, which `ConfigManager.load`
wraps as its invalid-format error. -/
def mkSkillConfig (data : List (String × YVal)) :
    Except String SkillConfig := do
  let ds ← match data.lookup "default_source" with
    | some v => asStr v
    | none => .error "default_source: Field required"
  let als ← match data.lookup "allowed_sources" with
    | some (.list l) => mapExcept asStr l
    | some _ => .error "allowed_sources: Input should be a valid list"
    | none => .ok []
  let ali ← match data.lookup "aliases" with
    | some (.obj m) => mapExcept asStrPair m
    | some _ => .error "aliases: Input should be a valid dict"
    | none => .ok []
  if !als.all sourceFormatOk then
    .error "Invalid source format in allowed_sources. Expected owner/repo"
  else if !sourceFormatOk ds then
    .error "Invalid source format. Expected owner/repo"
  else
    .ok { default_source := ds, allowed_sources := als, aliases := ali }

/-- The on-disk state of the config file, as `load` observes it: absent, or
present with the result of `yaml.safe_load` (any YAML value, including
null for an empty file, scalars and lists). -/
abbrev ConfigFile := Option YVal

/-- The ways `ConfigManager.load` fails. -/
inductive LoadErr where
  /-- `FileNotFoundError`: the config file is absent. -/
  | notFound
  /-- "Invalid configuration: ..." (`ValidationError` wrapped in
  `ValueError`). -/
  | invalidFormat (msg : String)
  /-- `TypeError` escaping `SkillConfig(**data)` uncaught when `data` is
  not a string-keyed mapping — only `ValidationError` is caught. -/
  | typeError
deriving DecidableEq, Repr

/-- `ConfigManager.load`: `FileNotFoundError` when the file is absent;
otherwise `data = yaml.safe_load(f) or {}` followed by
`SkillConfig(**data)`.  The `**` unpacking raises `TypeError` on a truthy
non-mapping or a mapping with a non-string key, and the surrounding
`try` catches only `ValidationError`, which surfaces as the invalid-format
`ValueError`. -/
def ConfigManager.load (file : ConfigFile) : Except LoadErr SkillConfig :=
  match file with
  | none => .error .notFound
  | some parsed =>
    match asKwargs (if pyTruthy parsed then parsed else .obj []) with
    | none => .error .typeError
    | some kwargs =>
      match mkSkillConfig kwargs with
      | .ok c => .ok c
      | .error m => .error (.invalidFormat m)

/-- `ConfigManager.save`: `config.model_dump(exclude_none=True)` serialized
as YAML.  No field of `SkillConfig` is ever `None`, so the dump is exactly
the three fields in declaration order, a string-keyed mapping. -/
def ConfigManager.save (c : SkillConfig) : YVal :=
  .obj [(.str "default_source", .str c.default_source),
        (.str "allowed_sources", .list (c.allowed_sources.map .str)),
        (.str "aliases", .obj (c.aliases.map fun p => (.str p.1, .str p.2)))]

/-- `ConfigManager.remove_source`, applied to the loaded config `c`:
`ValueError("Cannot remove the default source")` when `source` is the
default; otherwise remove the first occurrence and save only when present.
Returns the resulting config together with whether a save happened. -/
def ConfigManager.remove_source (c : SkillConfig) (source : String) :
    Except String (SkillConfig × Bool) :=
  if source = c.default_source then
    .error "Cannot remove the default source"
  else if c.allowed_sources.contains source then
    .ok ({ c with allowed_sources := c.allowed_sources.erase source }, true)
  else
    .ok (c, false)

/-! ### installer.py -/

/-- `ConflictResolution` from installer.py. -/
inductive ConflictResolution where
  | skip
  | overwrite
  | prompt
deriving DecidableEq, Repr

/-- Update an insertion-ordered mapping in place (Python `d[k] = v` /
writing a file): replace the first binding of `k`, or append a new one. -/
def upsert (k : String) (v : α) : List (String × α) → List (String × α)
  | [] => [(k, v)]
  | (k', v') :: rest =>
    if k' = k then (k, v) :: rest else (k', v') :: upsert k v rest

/-- The filesystem state the installer owns: the skill files (filename to
content) and the metadata sidecar (`SkillsMetadata.skills`, filename to
provenance record). -/
structure InstallerState where
  files : List (String × String)
  skills : List (String × SkillMetadata)
deriving DecidableEq, Repr

/-- `FileExistsError` raised by `install` under the prompt policy. -/
inductive InstallErr where
  | alreadyExists (filename : String)
deriving DecidableEq, Repr

/-- `SkillInstaller.install`: if the target filename exists, `skip` returns
`False` without writing and `prompt` raises `FileExistsError`; otherwise
(or under `overwrite`) the content is written, the checksum computed with
`sha` (the external SHA-256 digest), the metadata record upserted with the
current time `now`, and `True` returned. -/
def install (sha : String → String) (now : Nat) (skill : Skill)
    (cr : ConflictResolution) (st : InstallerState) :
    Except InstallErr Bool × InstallerState :=
  let path := skill.filename
  let write : Except InstallErr Bool × InstallerState :=
    (.ok true,
      { files := upsert path skill.content st.files,
        skills := upsert path
          { source := skill.source, fetched_at := now,
            branch := skill.branch, checksum := sha skill.content }
          st.skills })
  if (st.files.lookup path).isSome then
    match cr with
    | .skip => (.ok false, st)
    | .prompt => (.error (.alreadyExists path), st)
    | .overwrite => write
  else write

/-- `SkillInstaller.get_skill_info`: `.md`-normalized lookup in the
metadata index. -/
def get_skill_info (st : InstallerState) (skillName : String) :
    Option SkillMetadata :=
  st.skills.lookup (ensureMd skillName)

/-- `SkillInstaller.needs_update`: `False` when no metadata record exists,
otherwise whether the stored checksum differs from `newChecksum`. -/
def needs_update (st : InstallerState) (skillName newChecksum : String) :
    Bool :=
  match get_skill_info st skillName with
  | none => false
  | some info => info.checksum != newChecksum

/-- A retryable attempt: an HTTP status of 500 or above, or a transport
error. -/
def retryableResp : HttpResp → Prop
  | .status code _ => 500 ≤ code
  | .transportError _ => True

/-- The `FetchError` `fetch` records in `last_error` for a retryable
attempt. -/
def retryErrOf : HttpResp → FetchErr
  | .status code _ => .serverError code
  | .transportError msg => .networkError msg

/-! ### Helper lemmas -/

/-- One retry-loop iteration on a retryable attempt: the error is recorded,
the request counted, and a backoff sleep of `2.0 * 2 ^ attempt` happens
unless this was the final attempt. -/
theorem fetchAux_retry_step (fm : FrontMatter) (validate : Bool)
    (skillName : String) (source : SkillSource) (responses : Nat → HttpResp)
    (fuel attempt : Nat) (le : Option FetchErr) (reqs : Nat) (sleeps : List ℚ)
    (h : retryableResp (responses attempt)) :
    fetchAux fm validate skillName source responses
        (fuel + 1) attempt le reqs sleeps =
      fetchAux fm validate skillName source responses fuel (attempt + 1)
        (some (retryErrOf (responses attempt))) (reqs + 1)
        (if attempt < MAX_RETRIES - 1 then
          sleeps ++ [INITIAL_RETRY_DELAY * 2 ^ attempt] else sleeps) := by
  cases hr : responses attempt with
  | transportError msg => simp [fetchAux, hr, handleAttempt, retryErrOf]
  | status code body =>
    have h500 : 500 ≤ code := by
      have := h
      rw [hr] at this
      exact this
    have h200 : (code == 200) = false := by simp; omega
    have h404 : (code == 404) = false := by simp; omega
    have h403 : (code == 403) = false := by simp; omega
    simp [fetchAux, hr, handleAttempt, retryErrOf, h200, h404, h403, h500]

/-- Looking up a key just upserted finds the new value. -/
theorem lookup_upsert (k : String) (v : α) (l : List (String × α)) :
    (upsert k v l).lookup k = some v := by
  induction l with
  | nil => simp [upsert]
  | cons p rest ih =>
    obtain ⟨k', v'⟩ := p
    by_cases hk : k' = k
    · simp [upsert, hk]
    · have hkk : (k == k') = false := by
        simp
        exact fun e => hk e.symm
      simp [upsert, hk, List.lookup, hkk, ih]

/-- `mapExcept asStr` inverts mapping `YVal.str` over a string list. -/
theorem mapExcept_asStr_map_str (l : List String) :
    mapExcept asStr (l.map YVal.str) = .ok l := by
  induction l with
  | nil => rfl
  | cons a rest ih => simp [mapExcept, asStr, ih, bind, Except.bind]

/-- `mapExcept asStrPair` inverts wrapping alias keys and values in
`YVal.str`. -/
theorem mapExcept_asStrPair_map_str (m : List (String × String)) :
    mapExcept asStrPair (m.map fun p => (YVal.str p.1, YVal.str p.2)) =
      .ok m := by
  induction m with
  | nil => rfl
  | cons a rest ih => simp [mapExcept, asStrPair, ih, bind, Except.bind]

/-- Reconstructing a `SkillConfig` from the keyword arguments of its own
dump succeeds when both field validators accept the config. -/
theorem mkSkillConfig_save (c : SkillConfig)
    (hd : sourceFormatOk c.default_source = true)
    (ha : ∀ s ∈ c.allowed_sources, sourceFormatOk s = true) :
    mkSkillConfig
        [("default_source", .str c.default_source),
         ("allowed_sources", .list (c.allowed_sources.map .str)),
         ("aliases", .obj (c.aliases.map fun p => (.str p.1, .str p.2)))] =
      .ok c := by
  have hex : ¬ ∃ x ∈ c.allowed_sources, sourceFormatOk x = false := by
    rintro ⟨x, hx, hfalse⟩
    rw [ha x hx] at hfalse
    cases hfalse
  simp [mkSkillConfig, List.lookup,
    mapExcept_asStr_map_str, mapExcept_asStrPair_map_str, asStr,
    bind, Except.bind, hex, hd]

/-- Unpacking the dump of a config as keyword arguments always succeeds:
`save` emits a string-keyed mapping. -/
theorem asKwargs_save (c : SkillConfig) :
    asKwargs (ConfigManager.save c) =
      some
        [("default_source", .str c.default_source),
         ("allowed_sources", .list (c.allowed_sources.map .str)),
         ("aliases", .obj (c.aliases.map fun p => (.str p.1, .str p.2)))] :=
  rfl

/-- `pyStripL` strips to nothing exactly when every character is Python
whitespace. -/
theorem pyStripL_nil_iff (l : List Char) :
    pyStripL l = [] ↔ ∀ c ∈ l, pyIsSpace c = true := by
  constructor
  · intro h c hc
    unfold pyStripL at h
    rw [List.reverse_eq_nil_iff, List.dropWhile_eq_nil_iff] at h
    have hdrop : ∀ x ∈ l.dropWhile pyIsSpace, pyIsSpace x = true :=
      fun x hx => h x (List.mem_reverse.mpr hx)
    have hsplit : c ∈ l.takeWhile pyIsSpace ++ l.dropWhile pyIsSpace := by
      rw [List.takeWhile_append_dropWhile]
      exact hc
    rcases List.mem_append.mp hsplit with h1 | h2
    · exact List.mem_takeWhile_imp h1
    · exact hdrop c h2
  · intro h
    unfold pyStripL
    have hd : l.dropWhile pyIsSpace = [] := List.dropWhile_eq_nil_iff.mpr h
    simp [hd]

/-- `splitChar` always yields at least one segment, like Python
`str.split(sep)`. -/
theorem splitChar_ne_nil (sep : Char) (l : List Char) :
    splitChar sep l ≠ [] := by
  cases l with
  | nil => simp [splitChar]
  | cons a rest =>
    by_cases ha : a = sep
    · simp [splitChar, ha]
    · cases h : splitChar sep rest <;> simp [splitChar, ha, h]

/-- Every non-separator character of the input lands in some segment of
`splitChar`. -/
theorem mem_splitChar {sep c : Char} {l : List Char}
    (hc : c ∈ l) (hne : c ≠ sep) :
    ∃ line ∈ splitChar sep l, c ∈ line := by
  induction l with
  | nil => cases hc
  | cons a rest ih =>
    by_cases ha : a = sep
    · subst ha
      have hcr : c ∈ rest := by
        rcases List.mem_cons.mp hc with rfl | h
        · exact absurd rfl hne
        · exact h
      obtain ⟨line, hl, hcl⟩ := ih hcr
      exact ⟨line, by simp [splitChar]; exact Or.inr hl, hcl⟩
    · rcases hL : splitChar sep rest with _ | ⟨L, Ls⟩
      · exact absurd hL (splitChar_ne_nil sep rest)
      · rcases List.mem_cons.mp hc with rfl | hcr
        · exact ⟨c :: L, by simp [splitChar, ha, hL], List.mem_cons_self c L⟩
        · obtain ⟨line, hl, hcl⟩ := ih hcr
          rw [hL] at hl
          rcases List.mem_cons.mp hl with rfl | hls
          · exact ⟨a :: line, by simp [splitChar, ha, hL],
              List.mem_cons_of_mem a hcl⟩
          · exact ⟨line, by simp [splitChar, ha, hL]; exact Or.inr hls, hcl⟩

/-! ### Claim theorems -/

/-- Claim C1, counterexample: the claim says `from_string` fails on the
malformed string `"owner/"` (empty repo segment); in fact it succeeds,
returning an empty `repo`, because the code only checks the number of
parts. -/
theorem from_string_accepts_empty_segment :
    SkillSource.from_string "owner/" "main" =
      .ok { owner := "owner", repo := "", branch := "main" } := rfl

/-- Claim C1, amended: `from_string` succeeds exactly when splitting the
input on `/` yields two segments — empty segments are accepted; with any
other number of segments it fails with the format `ValueError`. -/
theorem from_string_ok_iff_two_parts (s b : String) :
    (∃ src, SkillSource.from_string s b = .ok src) ↔
      (pySplit '/' s).length = 2 := by
  unfold SkillSource.from_string
  rcases pySplit '/' s with _ | ⟨a, _ | ⟨c, _ | ⟨d, l⟩⟩⟩ <;> simp

/-- Claim C2 (code bug): on a 200 body whose front-matter the parser
rejects but which has a non-blank line, `_validate_content` tolerates the
parse failure (returns no error), yet `fetch` still fails, because the
second, unguarded `frontmatter.loads(content)` call on the 200 path lets
the parser's exception escape. -/
theorem frontmatter_failure_escapes_fetch :
    validate_content (fun _ => none) "---\nkey: [\n---\nBody text" = none ∧
    (fetch (fun _ => none) true "skill"
        { owner := "owner", repo := "repo", branch := "main" }
        (fun _ => .status 200 "---\nkey: [\n---\nBody text")).outcome =
      .error .frontMatterExn := ⟨rfl, rfl⟩

/-- Claim C3: when all attempts observe retryable failures (HTTP ≥ 500 or
transport errors), `fetch` makes exactly 4 requests, sleeps 2.0, 4.0, 8.0
time-units between consecutive attempts (none after the last), and fails
with the retryable error recorded on the final attempt. -/
theorem all_retryable_exhausts_after_four_attempts (fm : FrontMatter)
    (validate : Bool) (skillName : String) (source : SkillSource)
    (responses : Nat → HttpResp)
    (h : ∀ i, i < MAX_RETRIES → retryableResp (responses i)) :
    fetch fm validate skillName source responses =
      { outcome := .error (.fetchError (retryErrOf (responses 3))),
        requests := 4, sleeps := [2, 4, 8] } := by
  have h0 := h 0 (by decide)
  have h1 := h 1 (by decide)
  have h2 := h 2 (by decide)
  have h3 := h 3 (by decide)
  have e1 := fetchAux_retry_step fm validate skillName source responses
    3 0 none 0 [] h0
  have e2 := fetchAux_retry_step fm validate skillName source responses
    2 1 (some (retryErrOf (responses 0))) 1 [2] h1
  have e3 := fetchAux_retry_step fm validate skillName source responses
    1 2 (some (retryErrOf (responses 1))) 2 [2, 4] h2
  have e4 := fetchAux_retry_step fm validate skillName source responses
    0 3 (some (retryErrOf (responses 2))) 3 [2, 4, 8] h3
  norm_num [MAX_RETRIES, INITIAL_RETRY_DELAY] at e1 e2 e3 e4
  show fetchAux fm validate skillName source responses (3 + 1) 0 none 0 [] = _
  rw [e1, e2, e3, e4]
  simp [fetchAux]

/-- Claim C3 witness: four transport errors exhaust the retries with the
backoff trace 2.0, 4.0, 8.0 and the last network error surfaced. -/
theorem all_retryable_exhausts_after_four_attempts_witness :
    fetch (fun _ => some []) true "skill"
        { owner := "o", repo := "r", branch := "main" }
        (fun _ => .transportError "conn") =
      { outcome := .error (.fetchError (.networkError "conn")),
        requests := 4, sleeps := [2, 4, 8] } :=
  all_retryable_exhausts_after_four_attempts (fun _ => some []) true "skill"
    { owner := "o", repo := "r", branch := "main" }
    (fun _ => .transportError "conn") (fun _ _ => trivial)

/-- Claim C4: a 404 on the first attempt makes `fetch` fail immediately
with the not-found error after exactly one request and no backoff sleep. -/
theorem notfound_fails_without_retry (fm : FrontMatter) (validate : Bool)
    (skillName : String) (source : SkillSource) (responses : Nat → HttpResp)
    (body : String) (h : responses 0 = .status 404 body) :
    fetch fm validate skillName source responses =
      { outcome := .error (.fetchError
          (.notFound skillName source.full_name source.branch)),
        requests := 1, sleeps := [] } := by
  show fetchAux fm validate skillName source responses (3 + 1) 0 none 0 [] = _
  simp [fetchAux, h, handleAttempt]

/-- Claim C4 witness: a concrete 404 response fails fast. -/
theorem notfound_fails_without_retry_witness :
    fetch (fun _ => some []) true "skill"
        { owner := "o", repo := "r", branch := "main" }
        (fun _ => .status 404 "") =
      { outcome := .error (.fetchError (.notFound "skill" "o/r" "main")),
        requests := 1, sleeps := [] } :=
  notfound_fails_without_retry (fun _ => some []) true "skill"
    { owner := "o", repo := "r", branch := "main" }
    (fun _ => .status 404 "") "" rfl

/-- Claim C5: `remove_source` on the default source always fails with the
cannot-remove-default error, whatever `allowed_sources` holds; removing a
non-default source that is absent is a silent no-op returning the config
unchanged (and performing no save). -/
theorem remove_source_default_and_absent (c : SkillConfig) (s : String)
    (h1 : s ≠ c.default_source)
    (h2 : c.allowed_sources.contains s = false) :
    ConfigManager.remove_source c c.default_source =
      .error "Cannot remove the default source" ∧
    ConfigManager.remove_source c s = .ok (c, false) := by
  constructor
  · simp [ConfigManager.remove_source]
  · have h2' : s ∉ c.allowed_sources := by simpa using h2
    simp [ConfigManager.remove_source, h1, h2']

/-- Claim C5 witness: concrete config with the default inside and outside
the allow-list behaves as stated. -/
theorem remove_source_default_and_absent_witness :
    ConfigManager.remove_source
        { default_source := "a/b", allowed_sources := ["a/b", "c/d"],
          aliases := [] } "a/b" =
      .error "Cannot remove the default source" ∧
    ConfigManager.remove_source
        { default_source := "a/b", allowed_sources := ["a/b", "c/d"],
          aliases := [] } "x/y" =
      .ok ({ default_source := "a/b", allowed_sources := ["a/b", "c/d"],
             aliases := [] }, false) :=
  remove_source_default_and_absent
    { default_source := "a/b", allowed_sources := ["a/b", "c/d"],
      aliases := [] } "x/y" (by decide) (by decide)

/-- Claim C6: installing a skill twice under the skip policy (target not
present at first) returns `True` then `False`; the second call changes
nothing, and the file on disk holds the content of the first install. -/
theorem install_twice_skip (sha : String → String) (now1 now2 : Nat)
    (skill : Skill) (st : InstallerState)
    (h : st.files.lookup skill.filename = none) :
    (install sha now1 skill .skip st).1 = .ok true ∧
    (install sha now2 skill .skip (install sha now1 skill .skip st).2).1 =
      .ok false ∧
    (install sha now2 skill .skip (install sha now1 skill .skip st).2).2 =
      (install sha now1 skill .skip st).2 ∧
    ((install sha now1 skill .skip st).2).files.lookup skill.filename =
      some skill.content := by
  simp [install, h, lookup_upsert]

/-- Claim C6 witness: a concrete double install under skip. -/
theorem install_twice_skip_witness :
    (install (fun _ => "ck") 1 ⟨"a", "body", "o/r", "main", none⟩ .skip
        ⟨[], []⟩).1 = .ok true ∧
    (install (fun _ => "ck") 2 ⟨"a", "body", "o/r", "main", none⟩ .skip
        (install (fun _ => "ck") 1 ⟨"a", "body", "o/r", "main", none⟩ .skip
          ⟨[], []⟩).2).1 = .ok false ∧
    (install (fun _ => "ck") 2 ⟨"a", "body", "o/r", "main", none⟩ .skip
        (install (fun _ => "ck") 1 ⟨"a", "body", "o/r", "main", none⟩ .skip
          ⟨[], []⟩).2).2 =
      (install (fun _ => "ck") 1 ⟨"a", "body", "o/r", "main", none⟩ .skip
        ⟨[], []⟩).2 ∧
    ((install (fun _ => "ck") 1 ⟨"a", "body", "o/r", "main", none⟩ .skip
        ⟨[], []⟩).2).files.lookup "a.md" = some "body" :=
  install_twice_skip (fun _ => "ck") 1 2 ⟨"a", "body", "o/r", "main", none⟩
    ⟨[], []⟩ rfl

/-- Claim C7: `needs_update` is `False` when no metadata record exists for
the normalized filename, and otherwise reports whether the stored checksum
differs from the offered one; right after an install it is `False` for
that install's checksum and `True` for any other. -/
theorem needs_update_checksum_spec :
    (∀ st skillName ck, get_skill_info st skillName = none →
      needs_update st skillName ck = false) ∧
    (∀ st skillName ck r, get_skill_info st skillName = some r →
      (needs_update st skillName ck = true ↔ r.checksum ≠ ck)) ∧
    (∀ (sha : String → String) (now : Nat) (skill : Skill)
        (cr : ConflictResolution) (st st' : InstallerState),
      install sha now skill cr st = (.ok true, st') →
      needs_update st' skill.name (sha skill.content) = false ∧
      ∀ ck, ck ≠ sha skill.content →
        needs_update st' skill.name ck = true) := by
  refine ⟨?_, ?_, ?_⟩
  · intro st skillName ck h
    simp [needs_update, h]
  · intro st skillName ck r h
    simp [needs_update, h, bne_iff_ne]
  · intro sha now skill cr st st' h
    have hsk : st'.skills.lookup skill.filename =
        some { source := skill.source, fetched_at := now,
               branch := skill.branch, checksum := sha skill.content } := by
      unfold install at h
      by_cases hex : (st.files.lookup skill.filename).isSome
      · cases cr with
        | skip => simp [hex] at h
        | prompt => simp [hex] at h
        | overwrite =>
          simp [hex] at h
          rw [← h]
          exact lookup_upsert _ _ _
      · simp [hex] at h
        rw [← h]
        exact lookup_upsert _ _ _
    constructor
    · simp [needs_update, get_skill_info, Skill.filename] at hsk ⊢
      simp [hsk]
    · intro ck hck
      simp [needs_update, get_skill_info, Skill.filename] at hsk ⊢
      simp [hsk, bne_iff_ne]
      exact fun hh => absurd hh.symm hck

/-- Claim C7 witness: applied to an absent record, a present record with a
different checksum, and a freshly installed skill. -/
theorem needs_update_checksum_spec_witness :
    needs_update ⟨[], []⟩ "s" "x" = false ∧
    needs_update ⟨[], [("a.md", ⟨"o/r", 0, "main", "ck"⟩)]⟩
      "a" "other" = true ∧
    needs_update ⟨[("a.md", "body")], [("a.md", ⟨"o/r", 0, "main", "ck"⟩)]⟩
      "a" "ck" = false := by
  refine ⟨?_, ?_, ?_⟩
  · exact needs_update_checksum_spec.1 ⟨[], []⟩ "s" "x" rfl
  · exact (needs_update_checksum_spec.2.1
      ⟨[], [("a.md", ⟨"o/r", 0, "main", "ck"⟩)]⟩ "a" "other"
      ⟨"o/r", 0, "main", "ck"⟩ rfl).mpr (by decide)
  · exact (needs_update_checksum_spec.2.2 (fun _ => "ck") 0
      ⟨"a", "body", "o/r", "main", none⟩ .skip ⟨[], []⟩
      ⟨[("a.md", "body")], [("a.md", ⟨"o/r", 0, "main", "ck"⟩)]⟩ rfl).1

/-- Claim C8: saving a valid config (all sources in `owner/repo` shape,
as the field validators check) and loading it back returns the same
config. -/
theorem config_load_after_save (c : SkillConfig)
    (hd : sourceFormatOk c.default_source = true)
    (ha : ∀ s ∈ c.allowed_sources, sourceFormatOk s = true) :
    ConfigManager.load (some (ConfigManager.save c)) = .ok c := by
  have ht : pyTruthy (ConfigManager.save c) = true := rfl
  simp [ConfigManager.load, ht, asKwargs_save, mkSkillConfig_save c hd ha]

/-- Claim C8 witness: round trip of a concrete valid config. -/
theorem config_load_after_save_witness :
    ConfigManager.load (some (ConfigManager.save
        { default_source := "a/b", allowed_sources := ["a/b", "c/d"],
          aliases := [("al", "skill-a")] })) =
      .ok { default_source := "a/b", allowed_sources := ["a/b", "c/d"],
            aliases := [("al", "skill-a")] } :=
  config_load_after_save
    { default_source := "a/b", allowed_sources := ["a/b", "c/d"],
      aliases := [("al", "skill-a")] } (by decide) (by decide)

/-- Claim C9: the invalid-content branch of `_validate_content` is
unreachable: once the whitespace-only check has passed, some split line
necessarily has non-blank content, whatever the front-matter parser did. -/
theorem invalid_content_unreachable (fm : FrontMatter) (content : String) :
    validate_content fm content ≠ some FetchErr.invalidContent := by
  unfold validate_content
  by_cases h1 : content.length > MAX_FILE_SIZE
  · simp [h1]
  · rw [if_neg h1]
    by_cases h2 : (pyStripL content.data).isEmpty = true
    · simp [h2]
    · rw [if_neg h2]
      rcases hfm : fm content with _ | md
      · by_cases hb : ((splitChar '\n' content.data).all fun line =>
            (pyStripL line).isEmpty) = true
        · exfalso
          have hne : pyStripL content.data ≠ [] := by
            intro hnil
            exact h2 (by simp [hnil])
          have hex : ∃ c ∈ content.data, pyIsSpace c = false := by
            by_contra hno
            push_neg at hno
            exact hne ((pyStripL_nil_iff content.data).mpr
              fun c hc => by
                have := hno c hc
                exact eq_true_of_ne_false this)
          obtain ⟨c, hc, hcs⟩ := hex
          have hcn : c ≠ '\n' := by
            intro heq
            rw [heq] at hcs
            simp [pyIsSpace] at hcs
          obtain ⟨line, hl, hcl⟩ := mem_splitChar hc hcn
          have hblank := List.all_eq_true.mp hb line hl
          have hlnil : pyStripL line = [] := by simpa using hblank
          have := (pyStripL_nil_iff line).mp hlnil c hcl
          rw [this] at hcs
          cases hcs
        · simp [hb]
      · simp [hfm]

/-- Claim C9 witness: applied at a concrete parser and content. -/
theorem invalid_content_unreachable_witness :
    validate_content (fun _ => none) "text" ≠
      some FetchErr.invalidContent :=
  invalid_content_unreachable (fun _ => none) "text"

/-- Claim C10, counterexample: the claim says a present config file whose
parsed content does not yield a valid `ProjectConfig` always fails with
the invalid-format error; but a file whose YAML parses to the list
`["a"]` is truthy and not a mapping, so `SkillConfig(**data)` raises
`TypeError`, which only `ValidationError` being caught lets escape —
`load` fails with neither the invalid-format error nor not-found. -/
theorem load_typeerror_on_nonmapping :
    ConfigManager.load (some (YVal.list [YVal.str "a"])) =
      .error LoadErr.typeError := rfl

/-- Claim C10, amended: with the config file present, `load` never fails
with not-found; when the parse is falsy or a string-keyed mapping and the
content does not yield a valid config, the failure is the invalid-format
error — including a file whose YAML parses to nothing, which `or {}`
turns into the empty mapping and the required `default_source` field then
rejects; when the parse is a truthy non-mapping or has a non-string key,
the failure is an uncaught `TypeError` instead; not-found arises exactly
from the absent file. -/
theorem load_invalid_format_vs_notfound :
    ConfigManager.load none = .error LoadErr.notFound ∧
    (∀ parsed e, ConfigManager.load (some parsed) = .error e →
      e ≠ LoadErr.notFound) ∧
    (∀ parsed kwargs e,
      asKwargs (if pyTruthy parsed then parsed else .obj []) = some kwargs →
      ConfigManager.load (some parsed) = .error e →
      ∃ m, e = LoadErr.invalidFormat m) ∧
    (∀ parsed,
      asKwargs (if pyTruthy parsed then parsed else .obj []) = none →
      ConfigManager.load (some parsed) = .error LoadErr.typeError) ∧
    (∃ m, ConfigManager.load (some .null) =
      .error (LoadErr.invalidFormat m)) := by
  refine ⟨rfl, ?_, ?_, ?_, ?_⟩
  · intro parsed e h
    cases hk : asKwargs (if pyTruthy parsed then parsed else .obj []) with
    | none =>
      have hload : ConfigManager.load (some parsed) =
          .error LoadErr.typeError := by
        simp [ConfigManager.load, hk]
      rw [hload] at h
      simp at h
      rw [← h]
      simp
    | some kwargs =>
      cases hm : mkSkillConfig kwargs with
      | ok cc =>
        have hload : ConfigManager.load (some parsed) = .ok cc := by
          simp [ConfigManager.load, hk, hm]
        rw [hload] at h
        cases h
      | error m =>
        have hload : ConfigManager.load (some parsed) =
            .error (LoadErr.invalidFormat m) := by
          simp [ConfigManager.load, hk, hm]
        rw [hload] at h
        simp at h
        rw [← h]
        simp
  · intro parsed kwargs e hk h
    cases hm : mkSkillConfig kwargs with
    | ok cc =>
      have hload : ConfigManager.load (some parsed) = .ok cc := by
        simp [ConfigManager.load, hk, hm]
      rw [hload] at h
      cases h
    | error m =>
      have hload : ConfigManager.load (some parsed) =
          .error (LoadErr.invalidFormat m) := by
        simp [ConfigManager.load, hk, hm]
      rw [hload] at h
      simp at h
      exact ⟨m, h.symm⟩
  · intro parsed hk
    simp [ConfigManager.load, hk]
  · exact ⟨"default_source: Field required", rfl⟩

/-- Claim C10 witness: a file parsing to the integer 5 (truthy, not a
mapping) fails with the uncaught `TypeError`, by the amended theorem. -/
theorem load_invalid_format_vs_notfound_witness :
    ConfigManager.load (some (YVal.int 5)) = .error LoadErr.typeError :=
  load_invalid_format_vs_notfound.2.2.2.1 (YVal.int 5) rfl

end SkillManager
